import Mathlib

/-!
Verification development for the `dns01` challenge package
(`src/challenge/dns01/dns_challenge.go`).

The Go code is shallowly embedded: pure helpers become Lean functions on
`Nat`/`List`/`String`; the DNS resolver, the environment, the ACME core,
the provider and the validator are passed in explicitly as functional
parameters; 32-bit machine arithmetic is `Nat` arithmetic reduced
modulo `2 ^ 32`.
-/

namespace Dns01

/-! ### 32-bit word helpers (Go `uint32` arithmetic) -/

/-- Truncate to a 32-bit word, the implicit wrap-around of Go `uint32`. -/
def w32 (n : Nat) : Nat := n % 4294967296

/-- Right rotation of a 32-bit word by `n` bits. -/
def rotr (n x : Nat) : Nat := w32 ((x >>> n) ||| (x <<< (32 - n)))

/-! ### SHA-256 (Go `crypto/sha256.Sum256`)

`GetChallengeInfo` hashes the key authorization with the standard
library's SHA-256.  The full FIPS 180-4 algorithm is embedded: padding,
message schedule, 64 compression rounds, big-endian serialization. -/

/-- The eight working variables / hash state of SHA-256. -/
structure Hash8 where
  a : Nat
  b : Nat
  c : Nat
  d : Nat
  e : Nat
  f : Nat
  g : Nat
  h : Nat

/-- SHA-256 initial hash value. -/
def sha256H0 : Hash8 :=
  ⟨1779033703, 3144134277, 1013904242, 2773480762,
   1359893119, 2600822924, 528734635, 1541459225⟩

/-- SHA-256 round constants. -/
def sha256K : List Nat :=
  [1116352408, 1899447441, 3049323471, 3921009573, 961987163, 1508970993,
   2453635748, 2870763221, 3624381080, 310598401, 607225278, 1426881987,
   1925078388, 2162078206, 2614888103, 3248222580, 3835390401, 4022224774,
   264347078, 604807628, 770255983, 1249150122, 1555081692, 1996064986,
   2554220882, 2821834349, 2952996808, 3210313671, 3336571891, 3584528711,
   113926993, 338241895, 666307205, 773529912, 1294757372, 1396182291,
   1695183700, 1986661051, 2177026350, 2456956037, 2730485921, 2820302411,
   3259730800, 3345764771, 3516065817, 3600352804, 4094571909, 275423344,
   430227734, 506948616, 659060556, 883997877, 958139571, 1322822218,
   1537002063, 1747873779, 1955562222, 2024104815, 2227730452, 2361852424,
   2428436474, 2756734187, 3204031479, 3329325298]

/-- `Ch(e, f, g)` choice function. -/
def sha256Ch (e f g : Nat) : Nat := (e &&& f) ^^^ ((e ^^^ 4294967295) &&& g)

/-- `Maj(a, b, c)` majority function. -/
def sha256Maj (a b c : Nat) : Nat := (a &&& b) ^^^ (a &&& c) ^^^ (b &&& c)

/-- Big sigma-0. -/
def bigSigma0 (x : Nat) : Nat := rotr 2 x ^^^ rotr 13 x ^^^ rotr 22 x

/-- Big sigma-1. -/
def bigSigma1 (x : Nat) : Nat := rotr 6 x ^^^ rotr 11 x ^^^ rotr 25 x

/-- Small sigma-0 (message schedule). -/
def smallSigma0 (x : Nat) : Nat := rotr 7 x ^^^ rotr 18 x ^^^ (x >>> 3)

/-- Small sigma-1 (message schedule). -/
def smallSigma1 (x : Nat) : Nat := rotr 17 x ^^^ rotr 19 x ^^^ (x >>> 10)

/-- Serialize a natural into `k` big-endian bytes. -/
def beBytes : Nat → Nat → List Nat
  | 0, _ => []
  | k + 1, n => ((n >>> (8 * k)) &&& 255) :: beBytes k n

/-- SHA-256 padding: append `0x80`, zeros, then the 64-bit bit length,
so that the total length is a multiple of 64 bytes. -/
def sha256Pad (msg : List Nat) : List Nat :=
  msg ++ 0x80 :: List.replicate ((119 - msg.length % 64) % 64) 0 ++ beBytes 8 (8 * msg.length)

/-- Group bytes into big-endian 32-bit words. -/
def bytesToWords : List Nat → List Nat
  | a :: b :: c :: d :: rest => ((((a <<< 8) ||| b) <<< 8 ||| c) <<< 8 ||| d) :: bytesToWords rest
  | _ => []

/-- Extend the 16 block words to the 64 schedule words; the accumulator
holds the schedule so far, most recent word first. -/
def scheduleRev : Nat → List Nat → List Nat
  | 0, acc => acc
  | fuel + 1, acc =>
      let w := w32 (smallSigma1 (acc.getD 1 0) + acc.getD 6 0 +
                    smallSigma0 (acc.getD 14 0) + acc.getD 15 0)
      scheduleRev fuel (w :: acc)

/-- The 64-word message schedule of one block. -/
def sha256Schedule (blockWords : List Nat) : List Nat :=
  (scheduleRev 48 blockWords.reverse).reverse

/-- One compression round, consuming a `(K, W)` pair. -/
def sha256Step (v : Hash8) (kw : Nat × Nat) : Hash8 :=
  let t1 := w32 (v.h + bigSigma1 v.e + sha256Ch v.e v.f v.g + kw.1 + kw.2)
  let t2 := w32 (bigSigma0 v.a + sha256Maj v.a v.b v.c)
  ⟨w32 (t1 + t2), v.a, v.b, v.c, w32 (v.d + t1), v.e, v.f, v.g⟩

/-- Compress one 64-byte block into the running hash state. -/
def sha256Block (H : Hash8) (block : List Nat) : Hash8 :=
  let W := sha256Schedule (bytesToWords block)
  let v := (sha256K.zip W).foldl sha256Step H
  ⟨w32 (H.a + v.a), w32 (H.b + v.b), w32 (H.c + v.c), w32 (H.d + v.d),
   w32 (H.e + v.e), w32 (H.f + v.f), w32 (H.g + v.g), w32 (H.h + v.h)⟩

/-- Split a list into 64-byte chunks; the fuel is an upper bound on the
number of chunks, instantiated with the list length. -/
def chunks64 : Nat → List Nat → List (List Nat)
  | 0, _ => []
  | _, [] => []
  | fuel + 1, l => l.take 64 :: chunks64 fuel (l.drop 64)

/-- Serialize the final state into the 32 digest bytes, big-endian. -/
def hashBytes (v : Hash8) : List Nat :=
  beBytes 4 v.a ++ beBytes 4 v.b ++ beBytes 4 v.c ++ beBytes 4 v.d ++
  beBytes 4 v.e ++ beBytes 4 v.f ++ beBytes 4 v.g ++ beBytes 4 v.h

/-- SHA-256 of a byte sequence (Go `sha256.Sum256`). -/
def sha256 (msg : List Nat) : List Nat :=
  let padded := sha256Pad msg
  hashBytes ((chunks64 padded.length padded).foldl sha256Block sha256H0)

/-! ### UTF-8 (Go `[]byte(string)`) -/

/-- UTF-8 encoding of one scalar value, as Go produces when converting a
string to bytes. -/
def utf8Bytes (c : Char) : List Nat :=
  let n := c.toNat
  if n < 0x80 then [n]
  else if n < 0x800 then
    [0xC0 ||| (n >>> 6), 0x80 ||| (n &&& 0x3F)]
  else if n < 0x10000 then
    [0xE0 ||| (n >>> 12), 0x80 ||| ((n >>> 6) &&& 0x3F), 0x80 ||| (n &&& 0x3F)]
  else
    [0xF0 ||| (n >>> 18), 0x80 ||| ((n >>> 12) &&& 0x3F),
     0x80 ||| ((n >>> 6) &&& 0x3F), 0x80 ||| (n &&& 0x3F)]

/-- The UTF-8 bytes of a string. -/
def strBytes (s : String) : List Nat := (s.data.map utf8Bytes).flatten

/-! ### Base64 URL encoding without padding
(Go `base64.RawURLEncoding.EncodeToString`) -/

/-- The base64url alphabet. -/
def b64Char (n : Nat) : Char :=
  if n < 26 then Char.ofNat (65 + n)
  else if n < 52 then Char.ofNat (97 + (n - 26))
  else if n < 62 then Char.ofNat (48 + (n - 52))
  else if n = 62 then Char.ofNat 45
  else Char.ofNat 95

/-- Unpadded base64url encoding of a byte sequence. -/
def b64RawUrlChars : List Nat → List Char
  | [] => []
  | [a] => [b64Char (a >>> 2), b64Char ((a &&& 3) <<< 4)]
  | [a, b] => [b64Char (a >>> 2), b64Char (((a &&& 3) <<< 4) ||| (b >>> 4)),
               b64Char ((b &&& 15) <<< 2)]
  | a :: b :: c :: rest =>
      b64Char (a >>> 2) :: b64Char (((a &&& 3) <<< 4) ||| (b >>> 4)) ::
      b64Char (((b &&& 15) <<< 2) ||| (c >>> 6)) :: b64Char (c &&& 63) ::
      b64RawUrlChars rest

/-- Unpadded base64url encoding as a string. -/
def b64RawUrlEncode (bytes : List Nat) : String := ⟨b64RawUrlChars bytes⟩

/-! ### DNS CNAME resolution (`getChallengeFQDN`)

`dnsQuery(fqdn, TypeCNAME, ...)` either fails (transport error or a
non-success rcode — the code treats both identically at line 221) or
succeeds.  `updateDomainWithCName` is not part of the sources under
`src/`; modelled from the spec, a successful response carries at most
one CNAME target for the queried name, and the absence of a matching
CNAME answer leaves the queried name unchanged. -/

/-- Outcome of one CNAME query, as `getChallengeFQDN` distinguishes them.
`failure` covers both a query error and a non-`RcodeSuccess` response.
Modelled from the spec: `updateDomainWithCName` (absent from `src/`)
extracts the CNAME target for the queried name from a successful
response, returning the queried name itself when there is none, so a
success is summarized by an optional target. -/
inductive DnsResult where
  | failure : DnsResult
  | success : Option String → DnsResult
deriving DecidableEq

/-- A resolver assigns to every queried name the outcome of its CNAME
query; it stands for `dnsQuery(·, dns.TypeCNAME, recursiveNameservers, true)`
composed with `updateDomainWithCName`. -/
def Resolver : Type := String → DnsResult

/-- The CNAME-following loop of `getChallengeFQDN` (lines 217-235).
Returns the final name together with the number of queries issued.
The fuel is the remaining iteration budget of `for limit := 0; limit < 50`. -/
def followCnames (r : Resolver) : Nat → String → String × Nat
  | 0, fqdn => (fqdn, 0)
  | fuel + 1, fqdn =>
    match r fqdn with
    | DnsResult.failure => (fqdn, 1)
    | DnsResult.success none => (fqdn, 1)
    | DnsResult.success (some cname) =>
        if cname = fqdn then (fqdn, 1)
        else
          let rest := followCnames r fuel cname
          (rest.1, rest.2 + 1)

/-- `getChallengeFQDN(domain, followCNAME)`: build
`_acme-challenge.<domain>.` and optionally follow CNAMEs, up to 50 hops.
Returns the name together with the number of CNAME queries issued. -/
def getChallengeFQDN (domain : String) (followCNAME : Bool) (r : Resolver) : String × Nat :=
  let fqdn := "_acme-challenge." ++ domain ++ "."
  if !followCNAME then (fqdn, 0)
  else followCnames r 50 fqdn

/-! ### Environment toggle (`strconv.ParseBool(os.Getenv(...))`) -/

/-- Go `strconv.ParseBool`: `none` models the error return. -/
def parseBool (s : String) : Option Bool :=
  if s = "1" ∨ s = "t" ∨ s = "T" ∨ s = "TRUE" ∨ s = "true" ∨ s = "True" then some true
  else if s = "0" ∨ s = "f" ∨ s = "F" ∨ s = "FALSE" ∨ s = "false" ∨ s = "False" then some false
  else none

/-- An environment maps variable names to values; `os.Getenv` yields `""`
for an unset variable. -/
def EnvVars : Type := String → String

/-- `ok, _ := strconv.ParseBool(os.Getenv("LEGO_DISABLE_CNAME_SUPPORT"))`:
the error is discarded and `ok` is `false` on a parse failure. -/
def cnameDisabled (env : EnvVars) : Bool :=
  (parseBool (env "LEGO_DISABLE_CNAME_SUPPORT")).getD false

/-! ### `ChallengeInfo`, `GetChallengeInfo`, `GetRecord` -/

/-- The information used to create the TXT record. -/
structure ChallengeInfo where
  FQDN : String
  EffectiveFQDN : String
  Value : String
deriving DecidableEq

/-- `GetChallengeInfo(domain, keyAuth)`: SHA-256 the key authorization,
base64url-encode it without padding, and compute the plain and the
CNAME-resolved challenge names. -/
def GetChallengeInfo (domain keyAuth : String) (env : EnvVars) (r : Resolver) : ChallengeInfo :=
  let value := b64RawUrlEncode (sha256 (strBytes keyAuth))
  let ok := cnameDisabled env
  { Value := value
    FQDN := (getChallengeFQDN domain false r).1
    EffectiveFQDN := (getChallengeFQDN domain (!ok) r).1 }

/-- Number of CNAME queries a `GetChallengeInfo` call issues: its two
`getChallengeFQDN` calls combined. -/
def getChallengeInfoQueries (domain : String) (env : EnvVars) (r : Resolver) : Nat :=
  (getChallengeFQDN domain false r).2 + (getChallengeFQDN domain (!cnameDisabled env) r).2

/-- Deprecated `GetRecord(domain, keyAuth)`: the `(EffectiveFQDN, Value)`
projection of `GetChallengeInfo`. -/
def GetRecord (domain keyAuth : String) (env : EnvVars) (r : Resolver) : String × String :=
  let info := GetChallengeInfo domain keyAuth env r
  (info.EffectiveFQDN, info.Value)

/-! ### Chains of CNAME records, for stating the resolution claims -/

/-- `advancesB r s l`: starting from `s`, each successive name of `l` is
obtained by one successful CNAME query answering a target distinct from
the queried name. -/
def advancesB (r : Resolver) : String → List String → Bool
  | _, [] => true
  | s, t :: rest =>
      decide (r s = DnsResult.success (some t)) && !decide (t = s) && advancesB r t rest

/-- `terminalB r n`: the query for `n` fails, has a non-success rcode, or
succeeds without a CNAME answer — every way the loop stops querying. -/
def terminalB (r : Resolver) (n : String) : Bool :=
  decide (r n = DnsResult.failure) || decide (r n = DnsResult.success none)

/-! ### Challenge lifecycle

The collaborators of `Challenge` — `challenge.FindChallenge`, the ACME
core's `GetKeyAuthorization`, the provider, the validator and the
precheck — are external to this file's source and are passed in as
functional parameters.  Errors are modelled as strings;
`fmt.Errorf("... %w ...")` becomes string concatenation, which keeps
exactly the information the format string embeds. -/

/-- The DNS-01 challenge object extracted from the authorization. -/
structure Chlng where
  token : String
deriving DecidableEq

/-- Observable actions of a `Solve` run, in order of occurrence. -/
inductive Ev where
  | sleep : Nat → Ev
  | precheck : Ev
  | attach : Ev
  | validateCall : Ev
deriving DecidableEq

/-- The external collaborators and outcomes a lifecycle call interacts
with.  `pollFuel` is the number of precheck attempts the `timeout`
budget admits before `wait.For` gives up. -/
structure LifecycleEnv where
  domain : String
  identifier : String
  findChallenge : Except String Chlng
  getKeyAuth : String → Except String String
  hasProvider : Bool
  present : String → String → String → Except String Unit
  cleanUp : String → String → String → Except String Unit
  providerTimeout : Option (Nat × Nat)
  sequentialCap : Option Nat
  preCheckCall : String → String → String → Nat → Bool × Option String
  validate : String → Chlng → Except String Unit
  envVars : EnvVars
  resolver : Resolver
  pollFuel : Nat

/-- `PreSolve` (lines 75-100): find the challenge, require a provider,
derive the key authorization and present the record; a present failure
is wrapped with the targeted domain. -/
def PreSolve (env : LifecycleEnv) : Except String Unit :=
  match env.findChallenge with
  | Except.error e => Except.error e
  | Except.ok chlng =>
    if !env.hasProvider then
      Except.error ("[" ++ env.domain ++ "] acme: no DNS Provider configured")
    else
      match env.getKeyAuth chlng.token with
      | Except.error e => Except.error e
      | Except.ok keyAuth =>
        match env.present env.identifier chlng.token keyAuth with
        | Except.error e =>
            Except.error ("[" ++ env.domain ++ "] acme: error presenting token: " ++ e)
        | Except.ok _ => Except.ok ()

/-- `CleanUp` (lines 147-161): find the challenge, derive the key
authorization and call the provider's `CleanUp`, returning its error
unchanged. -/
def CleanUp (env : LifecycleEnv) : Except String Unit :=
  match env.findChallenge with
  | Except.error e => Except.error e
  | Except.ok chlng =>
    match env.getKeyAuth chlng.token with
    | Except.error e => Except.error e
    | Except.ok keyAuth => env.cleanUp env.identifier chlng.token keyAuth

/-- `Sequential` (lines 163-168): report the provider's sequential
capability when present. -/
def Sequential (env : LifecycleEnv) : Bool × Nat :=
  match env.sequentialCap with
  | some d => (true, d)
  | none => (false, 0)

/-- Modelled from the spec: `wait.For` (package `platform/wait`, absent
from `src/`) runs per-tick transitions — satisfied means success;
unsatisfied with time remaining sleeps one interval and retries;
exhausted time yields the timeout error, or propagates the last check
error when one occurred.  The trace records each precheck and sleep. -/
def pollUntil (check : Nat → Bool × Option String) (interval : Nat) :
    Nat → Nat → Option String → Except String Unit × List Ev
  | 0, _, lastErr =>
      (Except.error (lastErr.getD "time limit exceeded"), [])
  | fuel + 1, i, lastErr =>
      let step := check i
      if step.1 then (Except.ok (), [Ev.precheck])
      else
        let nextErr := match step.2 with
          | some e => some e
          | none => lastErr
        let rest := pollUntil check interval fuel (i + 1) nextErr
        (rest.1, Ev.precheck :: Ev.sleep interval :: rest.2)

/-- The `(timeout, interval)` pair `Solve` uses: the provider's, else
the defaults (60 s, 2 s) — modelled in seconds. -/
def solveTimeouts (env : LifecycleEnv) : Nat × Nat :=
  env.providerTimeout.getD (60, 2)

/-- The `ChallengeInfo` computed inside `Solve` for key authorization
`keyAuth`. -/
def solveInfo (env : LifecycleEnv) (keyAuth : String) : ChallengeInfo :=
  GetChallengeInfo env.identifier keyAuth env.envVars env.resolver

/-- The propagation wait of `Solve`: `wait.For` applied to the closure
calling `preCheck.call(domain, info.EffectiveFQDN, info.Value)`. -/
def solvePoll (env : LifecycleEnv) (keyAuth : String) : Except String Unit × List Ev :=
  pollUntil
    (fun i => env.preCheckCall env.domain (solveInfo env keyAuth).EffectiveFQDN
                (solveInfo env keyAuth).Value i)
    (solveTimeouts env).2 env.pollFuel 0 none

/-- `Solve` (lines 102-144): find the challenge, derive the key
authorization and the challenge info, sleep one interval, run the
propagation wait; on success attach the key authorization and call the
validator, on failure return the wait's error.  The second component is
the trace of observable actions. -/
def Solve (env : LifecycleEnv) : Except String Unit × List Ev :=
  match env.findChallenge with
  | Except.error e => (Except.error e, [])
  | Except.ok chlng =>
    match env.getKeyAuth chlng.token with
    | Except.error e => (Except.error e, [])
    | Except.ok keyAuth =>
      let poll := solvePoll env keyAuth
      let evs := Ev.sleep (solveTimeouts env).2 :: poll.2
      match poll.1 with
      | Except.error e => (Except.error e, evs)
      | Except.ok _ =>
          (env.validate env.domain chlng, evs ++ [Ev.attach, Ev.validateCall])

/-- `prechecksSleptFrom interval prevSleep evs`: every precheck in `evs`
is immediately preceded by a sleep of one `interval`; `prevSleep` says
whether such a sleep immediately precedes the head. -/
def prechecksSleptFrom (interval : Nat) : Bool → List Ev → Bool
  | _, [] => true
  | prevSleep, Ev.precheck :: rest => prevSleep && prechecksSleptFrom interval false rest
  | _, Ev.sleep j :: rest => prechecksSleptFrom interval (decide (j = interval)) rest
  | _, Ev.attach :: rest => prechecksSleptFrom interval false rest
  | _, Ev.validateCall :: rest => prechecksSleptFrom interval false rest

/-! ### Substring containment, for the error-wrapping claims -/

/-- `listPrefixOf needle hay`: `needle` is an initial segment of `hay`. -/
def listPrefixOf : List Char → List Char → Bool
  | [], _ => true
  | _ :: _, [] => false
  | a :: as, b :: bs => decide (a = b) && listPrefixOf as bs

/-- `listContainsSub hay needle`: `needle` occurs contiguously in `hay`. -/
def listContainsSub : List Char → List Char → Bool
  | [], needle => needle.isEmpty
  | a :: as, needle => listPrefixOf needle (a :: as) || listContainsSub as needle

/-- An error message `hay` carries the domain `needle` when the latter
occurs in it verbatim. -/
def strContainsSub (hay needle : String) : Bool := listContainsSub hay.data needle.data

/-- The terminal name of a CNAME chain starting at `s` and advancing
through the names of `l`. -/
def lastName : String → List String → String
  | s, [] => s
  | _, t :: rest => lastName t rest

/-! ### Concrete collaborators, used to exercise the theorems -/

/-- A lifecycle environment whose collaborators all succeed and whose
precheck never reports propagation. -/
def baseEnv : LifecycleEnv where
  domain := "example.com"
  identifier := "example.com"
  findChallenge := Except.ok ⟨"tok"⟩
  getKeyAuth := fun _ => Except.ok "ka1"
  hasProvider := true
  present := fun _ _ _ => Except.ok ()
  cleanUp := fun _ _ _ => Except.ok ()
  providerTimeout := none
  sequentialCap := none
  preCheckCall := fun _ _ _ _ => (false, none)
  validate := fun _ _ => Except.ok ()
  envVars := fun _ => ""
  resolver := fun _ => DnsResult.failure
  pollFuel := 2

/-- A resolver with a single CNAME hop away from the challenge name of
`example.com`; every other query fails. -/
def chainResolver : Resolver := fun n =>
  if n = "_acme-challenge.example.com." then DnsResult.success (some "cname1.example.org.")
  else DnsResult.failure

/-- A resolver whose challenge name points at `b.`, which points at
itself: a one-element CNAME cycle reached after one hop. -/
def cycleResolver : Resolver := fun n =>
  if n = "_acme-challenge.a." then DnsResult.success (some "b.")
  else if n = "b." then DnsResult.success (some "b.")
  else DnsResult.failure

/-- A resolver answering every query with a fresh, strictly longer
CNAME target: an adversarial never-ending chain. -/
def advanceResolver : Resolver := fun n => DnsResult.success (some ("x" ++ n))

/-- The first `n` names of the chain `advanceResolver` produces from `s`. -/
def iterChain : Nat → String → List String
  | 0, _ => []
  | n + 1, s => ("x" ++ s) :: iterChain n ("x" ++ s)

/-- An environment with the CNAME toggle set to `"true"`. -/
def envDisabledTrue : EnvVars := fun v =>
  if v = "LEGO_DISABLE_CNAME_SUPPORT" then "true" else ""

/-- An environment with the CNAME toggle set — to the value `"0"`. -/
def envDisabledZero : EnvVars := fun v =>
  if v = "LEGO_DISABLE_CNAME_SUPPORT" then "0" else ""

/-- `baseEnv` with a failing provider `CleanUp`. -/
def cleanUpFailEnv : LifecycleEnv :=
  { baseEnv with cleanUp := fun _ _ _ => Except.error "boom" }

/-- `baseEnv` with a failing provider `Present` and `CleanUp`. -/
def provFailEnv : LifecycleEnv :=
  { baseEnv with
    present := fun _ _ _ => Except.error "api down"
    cleanUp := fun _ _ _ => Except.error "boom" }

/-- `baseEnv` with the sequential capability, delay 5. -/
def seqEnv : LifecycleEnv := { baseEnv with sequentialCap := some 5 }

/-! ## Theorems -/

/-- The digest serialization always yields 32 bytes. -/
theorem hashBytes_length (v : Hash8) : (hashBytes v).length = 32 := rfl

/-- SHA-256 always yields a 32-byte digest. -/
theorem sha256_length (msg : List Nat) : (sha256 msg).length = 32 := hashBytes_length _

/-- Length of the unpadded base64url encoding of `3 * n + 2` bytes. -/
theorem b64RawUrlChars_length :
    ∀ (n : Nat) (l : List Nat), l.length = 3 * n + 2 →
      (b64RawUrlChars l).length = 4 * n + 3 := by
  intro n
  induction n with
  | zero =>
    intro l h
    match l with
    | [] => simp at h
    | [a] => simp at h
    | [a, b] => rfl
    | a :: b :: c :: rest => simp at h
  | succ m ih =>
    intro l h
    match l with
    | [] => simp at h
    | [a] => simp at h
    | [a, b] => simp at h
    | a :: b :: c :: rest =>
      have hr : rest.length = 3 * m + 2 := by simp at h; omega
      simp [b64RawUrlChars, ih rest hr]
      omega

/-- The encoded SHA-256 digest is always 43 characters long. -/
theorem sha256_value_length (msg : List Nat) :
    (b64RawUrlEncode (sha256 msg)).length = 43 := by
  have h := b64RawUrlChars_length 10 (sha256 msg) (by rw [sha256_length])
  exact h

set_option maxRecDepth 100000 in
/-- Sanity check following the spec example: the value for key
authorization `"abc"` matches the independently computed
base64url(sha256("abc")). -/
theorem sha256_abc_value :
    b64RawUrlEncode (sha256 (strBytes "abc")) =
      "ungWv48Bz-pBQUDeXa4iI7ADYaOWF3qctBD_YfIAFa0" := by decide

/-- Claim C1: for every non-empty key authorization, the `Value` field of
`GetChallengeInfo` equals the unpadded base64url encoding of the SHA-256
digest of the key authorization, is exactly 43 characters long, and is
deterministic — independent of the domain, the environment and the
resolver. -/
theorem getChallengeInfo_value_spec (domain keyAuth : String) (env : EnvVars) (r : Resolver)
    (_h1 : keyAuth ≠ "") :
    (GetChallengeInfo domain keyAuth env r).Value =
      b64RawUrlEncode (sha256 (strBytes keyAuth)) ∧
    (GetChallengeInfo domain keyAuth env r).Value.length = 43 ∧
    ∀ (domain2 : String) (env2 : EnvVars) (r2 : Resolver),
      (GetChallengeInfo domain2 keyAuth env2 r2).Value =
        (GetChallengeInfo domain keyAuth env r).Value :=
  ⟨rfl, sha256_value_length _, fun _ _ _ => rfl⟩

set_option maxRecDepth 100000 in
/-- Witness for C1, at key authorization `"abc"`. -/
theorem getChallengeInfo_value_spec_witness :
    (GetChallengeInfo "example.com" "abc" (fun _ => "") (fun _ => DnsResult.failure)).Value =
      "ungWv48Bz-pBQUDeXa4iI7ADYaOWF3qctBD_YfIAFa0" ∧
    ((GetChallengeInfo "example.com" "abc" (fun _ => "") (fun _ => DnsResult.failure)).Value =
      b64RawUrlEncode (sha256 (strBytes "abc")) ∧
    (GetChallengeInfo "example.com" "abc" (fun _ => "") (fun _ => DnsResult.failure)).Value.length = 43 ∧
    ∀ (domain2 : String) (env2 : EnvVars) (r2 : Resolver),
      (GetChallengeInfo domain2 "abc" env2 r2).Value =
        (GetChallengeInfo "example.com" "abc" (fun _ => "") (fun _ => DnsResult.failure)).Value) :=
  ⟨by decide,
   getChallengeInfo_value_spec "example.com" "abc" (fun _ => "") (fun _ => DnsResult.failure)
     (by decide)⟩

/-- Claim C6: the `FQDN` field of `GetChallengeInfo` is exactly
`"_acme-challenge." + domain + "."`, for every key authorization,
environment and resolver. -/
theorem getChallengeInfo_fqdn_spec (domain keyAuth : String) (env : EnvVars) (r : Resolver) :
    (GetChallengeInfo domain keyAuth env r).FQDN = "_acme-challenge." ++ domain ++ "." := rfl

/-- Claim C10: the deprecated `GetRecord` is the
`(EffectiveFQDN, Value)` projection of `GetChallengeInfo`. -/
theorem getRecord_projection (domain keyAuth : String) (env : EnvVars) (r : Resolver) :
    GetRecord domain keyAuth env r =
      ((GetChallengeInfo domain keyAuth env r).EffectiveFQDN,
       (GetChallengeInfo domain keyAuth env r).Value) := rfl

/-- Claim C9: `Sequential` reports `(true, D)` exactly when the provider
exposes the sequential capability with delay `D`, and `(false, 0)`
otherwise. -/
theorem sequential_spec :
    (∀ (env : LifecycleEnv) (d : Nat),
      env.sequentialCap = some d → Sequential env = (true, d)) ∧
    (∀ env : LifecycleEnv, env.sequentialCap = none → Sequential env = (false, 0)) := by
  constructor
  · intro env d h
    simp [Sequential, h]
  · intro env h
    simp [Sequential, h]

/-- Witness for C9: a provider with delay 5, and one with no sequential
capability. -/
theorem sequential_spec_witness :
    Sequential seqEnv = (true, 5) ∧ Sequential baseEnv = (false, 0) :=
  ⟨sequential_spec.1 seqEnv 5 rfl, sequential_spec.2 baseEnv rfl⟩

/-- Following a CNAME chain that terminates within the fuel budget stops
at the chain's last name, after one query per chain edge plus the final
unanswered query. -/
theorem followCnames_chain (r : Resolver) :
    ∀ (l : List String) (s : String) (fuel : Nat),
      l.length < fuel → advancesB r s l = true → terminalB r (lastName s l) = true →
      followCnames r fuel s = (lastName s l, l.length + 1) := by
  intro l
  induction l with
  | nil =>
    intro s fuel hfuel hadv hterm
    match fuel, hfuel with
    | m + 1, _ =>
      simp [lastName, terminalB, decide_eq_true_iff] at hterm
      rcases hterm with h | h <;> simp [followCnames, lastName, h]
  | cons t rest ih =>
    intro s fuel hfuel hadv hterm
    match fuel, hfuel with
    | m + 1, hfuel =>
      simp [advancesB, decide_eq_true_iff, Bool.and_eq_true] at hadv
      obtain ⟨⟨hq, hne⟩, hrest⟩ := hadv
      have hm : rest.length < m := by simp at hfuel; omega
      have hterm2 : terminalB r (lastName t rest) = true := hterm
      have := ih t m hm hrest hterm2
      simp [followCnames, hq, hne, lastName, this]

/-- Claim C2: when the resolver presents a CNAME chain of fewer than 50
hops from the challenge name that ends in a failed query or a reply
without a CNAME answer, the effective name is the terminal name of the
chain; and a failed query always returns the current name, not an
error. -/
theorem getChallengeFQDN_chain (domain : String) (r : Resolver) (l : List String)
    (hadv : advancesB r ("_acme-challenge." ++ domain ++ ".") l = true)
    (hterm : terminalB r (lastName ("_acme-challenge." ++ domain ++ ".") l) = true)
    (hlen : l.length < 50) :
    (getChallengeFQDN domain true r).1 =
      lastName ("_acme-challenge." ++ domain ++ ".") l ∧
    ∀ (s : String) (fuel : Nat), r s = DnsResult.failure →
      (followCnames r (fuel + 1) s).1 = s := by
  constructor
  · have := followCnames_chain r l ("_acme-challenge." ++ domain ++ ".") 50 hlen hadv hterm
    simp [getChallengeFQDN, this]
  · intro s fuel h
    simp [followCnames, h]

/-- Witness for C2: a one-hop chain from `example.com`'s challenge name,
with the query at the target failing. -/
theorem getChallengeFQDN_chain_witness :
    (getChallengeFQDN "example.com" true chainResolver).1 = "cname1.example.org." ∧
    (followCnames chainResolver 8 "nosuch.example.net.").1 = "nosuch.example.net." := by
  have h := getChallengeFQDN_chain "example.com" chainResolver ["cname1.example.org."]
    (by decide) (by decide) (by decide)
  exact ⟨h.1, h.2 "nosuch.example.net." 7 (by decide)⟩

/-- The loop issues at most `fuel` queries. -/
theorem followCnames_hops_le (r : Resolver) :
    ∀ (fuel : Nat) (s : String), (followCnames r fuel s).2 ≤ fuel := by
  intro fuel
  induction fuel with
  | zero => intro s; simp [followCnames]
  | succ m ih =>
    intro s
    cases hq : r s with
    | failure => simp [followCnames, hq]
    | success o =>
      cases o with
      | none => simp [followCnames, hq]
      | some t =>
        by_cases ht : t = s
        · simp [followCnames, hq, ht]
        · simp [followCnames, hq, ht]
          exact ih t

/-- While the resolver keeps answering fresh CNAME targets along a
chain at least as long as the fuel, every unit of fuel issues one
query. -/
theorem followCnames_hops_chain (r : Resolver) :
    ∀ (fuel : Nat) (l : List String) (s : String),
      advancesB r s l = true → fuel ≤ l.length →
      (followCnames r fuel s).2 = fuel := by
  intro fuel
  induction fuel with
  | zero => intro l s _ _; simp [followCnames]
  | succ m ih =>
    intro l s hadv hlen
    match l with
    | [] => simp at hlen
    | t :: rest =>
      simp [advancesB, decide_eq_true_iff, Bool.and_eq_true] at hadv
      obtain ⟨⟨hq, hne⟩, hrest⟩ := hadv
      have hm : m ≤ rest.length := by simp at hlen; omega
      simp [followCnames, hq, hne, ih rest t hrest hm]

/-- When every query anywhere answers a fresh CNAME target, the loop
uses its whole fuel, one query per unit. -/
theorem followCnames_hops_all (r : Resolver)
    (hall : ∀ n : String, ∃ t : String, r n = DnsResult.success (some t) ∧ t ≠ n) :
    ∀ (fuel : Nat) (s : String), (followCnames r fuel s).2 = fuel := by
  intro fuel
  induction fuel with
  | zero => intro s; simp [followCnames]
  | succ m ih =>
    intro s
    obtain ⟨t, hq, hne⟩ := hall s
    simp [followCnames, hq, hne, ih t]

/-- Claim C3 counterexample: `cycleResolver` contains a CNAME cycle
(`"b."` maps to itself) that is reached from the start name but is not
an immediate self-reference of it, and the follow loop stops after 2
hops, not 50. -/
theorem followCnames_cycle_not_fifty :
    cycleResolver "b." = DnsResult.success (some "b.") ∧
    cycleResolver "_acme-challenge.a." = DnsResult.success (some "b.") ∧
    ("b." : String) ≠ "_acme-challenge.a." ∧
    (followCnames cycleResolver 50 "_acme-challenge.a.").2 = 2 ∧
    ¬ (followCnames cycleResolver 50 "_acme-challenge.a.").2 = 50 := by
  refine ⟨rfl, rfl, by decide, by decide, by decide⟩

/-- Claim C3 (amended): the follow loop always issues at most 50
queries; it issues exactly 50 along any chain of at least 50 fresh
targets, and against a resolver that always answers a fresh target (as
any CNAME cycle of length at least 2 does); a query answering the
queried name itself — in particular an immediate self-reference —
stops the loop at that hop. -/
theorem followCnames_termination (r : Resolver) (s : String) :
    ((followCnames r 50 s).2 ≤ 50) ∧
    (∀ l : List String, advancesB r s l = true → 50 ≤ l.length →
      (followCnames r 50 s).2 = 50) ∧
    ((∀ n : String, ∃ t : String, r n = DnsResult.success (some t) ∧ t ≠ n) →
      (followCnames r 50 s).2 = 50) ∧
    (r s = DnsResult.success (some s) → followCnames r 50 s = (s, 1)) := by
  refine ⟨followCnames_hops_le r 50 s, ?_, ?_, ?_⟩
  · intro l hadv hlen
    exact followCnames_hops_chain r 50 l s hadv hlen
  · intro hall
    exact followCnames_hops_all r hall 50 s
  · intro hq
    simp [followCnames, hq]

/-- Witness for C3 (amended): the bound at a failing resolver, a
50-target chain and the always-fresh resolver behind it, and an
immediate self-reference. -/
theorem followCnames_termination_witness :
    ((followCnames (fun _ => DnsResult.failure) 50 "a.").2 ≤ 50) ∧
    (followCnames advanceResolver 50 "s.").2 = 50 ∧
    (followCnames advanceResolver 50 "t.").2 = 50 ∧
    followCnames (fun _ => DnsResult.success (some "loop.")) 50 "loop." = ("loop.", 1) := by
  refine ⟨(followCnames_termination (fun _ => DnsResult.failure) "a.").1, ?_, ?_, ?_⟩
  · exact (followCnames_termination advanceResolver "s.").2.1 (iterChain 50 "s.")
      (by decide) (by decide)
  · refine (followCnames_termination advanceResolver "t.").2.2.1 ?_
    intro n
    refine ⟨"x" ++ n, rfl, ?_⟩
    intro h
    have hlen := congrArg String.length h
    simp [String.length_append] at hlen
    exact absurd hlen (by decide)
  · exact (followCnames_termination (fun _ => DnsResult.success (some "loop.")) "loop.").2.2.2 rfl

/-- Claim C5 counterexample: with `LEGO_DISABLE_CNAME_SUPPORT` set — to
the value `"0"` — CNAME-following stays enabled: the effective name
differs from the challenge name and a CNAME query is issued. -/
theorem getChallengeInfo_disabled_set_cex :
    envDisabledZero "LEGO_DISABLE_CNAME_SUPPORT" ≠ "" ∧
    (GetChallengeInfo "example.com" "abc" envDisabledZero chainResolver).EffectiveFQDN ≠
      (GetChallengeInfo "example.com" "abc" envDisabledZero chainResolver).FQDN ∧
    getChallengeInfoQueries "example.com" envDisabledZero chainResolver ≠ 0 := by
  refine ⟨by decide, by decide, by decide⟩

/-- Claim C5 (amended): when `LEGO_DISABLE_CNAME_SUPPORT` is set to a
value Go's `strconv.ParseBool` accepts as true, `EffectiveFQDN` equals
`FQDN` for every resolver and no CNAME query is issued; a set value
that does not parse as true leaves CNAME-following enabled. -/
theorem getChallengeInfo_disabled_spec (domain keyAuth : String) (env : EnvVars) (r : Resolver)
    (h : parseBool (env "LEGO_DISABLE_CNAME_SUPPORT") = some true) :
    (GetChallengeInfo domain keyAuth env r).EffectiveFQDN =
      (GetChallengeInfo domain keyAuth env r).FQDN ∧
    getChallengeInfoQueries domain env r = 0 := by
  constructor
  · simp [GetChallengeInfo, cnameDisabled, h]
  · simp [getChallengeInfoQueries, cnameDisabled, h, getChallengeFQDN]

/-- Witness for C5 (amended): the variable set to `"true"`, against a
resolver that would answer a CNAME. -/
theorem getChallengeInfo_disabled_spec_witness :
    (GetChallengeInfo "example.com" "abc" envDisabledTrue chainResolver).EffectiveFQDN =
      (GetChallengeInfo "example.com" "abc" envDisabledTrue chainResolver).FQDN ∧
    getChallengeInfoQueries "example.com" envDisabledTrue chainResolver = 0 :=
  getChallengeInfo_disabled_spec "example.com" "abc" envDisabledTrue chainResolver (by decide)

/-- A list is a prefix of itself extended by anything. -/
theorem listPrefixOf_append (l r : List Char) : listPrefixOf l (l ++ r) = true := by
  induction l with
  | nil => rfl
  | cons a as ih => simp [listPrefixOf, ih]

/-- A list occurs in itself extended on the right. -/
theorem listContainsSub_append (n r : List Char) : listContainsSub (n ++ r) n = true := by
  cases n with
  | nil =>
    cases r with
    | nil => rfl
    | cons b bs => simp [listContainsSub, listPrefixOf]
  | cons a as =>
    simp only [List.cons_append, listContainsSub]
    have := listPrefixOf_append (a :: as) r
    simp only [List.cons_append] at this
    simp [this]

/-- Occurrence is preserved by extending the haystack on the left. -/
theorem listContainsSub_cons (x : Char) (hay n : List Char)
    (h : listContainsSub hay n = true) : listContainsSub (x :: hay) n = true := by
  simp [listContainsSub, h]

/-- A message of the form `"[" ++ d ++ rest` carries `d`. -/
theorem strContainsSub_wrap (d rest : String) :
    strContainsSub ("[" ++ d ++ rest) d = true := by
  have hdata : ("[" ++ d ++ rest).data = '[' :: (d.data ++ rest.data) := by
    simp [String.data_append]
  simp only [strContainsSub, hdata]
  exact listContainsSub_cons '[' (d.data ++ rest.data) d.data
    (listContainsSub_append d.data rest.data)

/-- Claim C7 counterexample: a provider `CleanUp` failure is returned
verbatim, without the targeted domain. -/
theorem cleanUp_unwrapped_cex :
    CleanUp cleanUpFailEnv = Except.error "boom" ∧
    cleanUpFailEnv.domain = "example.com" ∧
    strContainsSub "boom" "example.com" = false := by
  refine ⟨rfl, rfl, by decide⟩

/-- Claim C7 (amended): a `Provider.Present` failure in `PreSolve` is
wrapped with the targeted domain, while a `Provider.CleanUp` failure in
`CleanUp` is returned to the caller unmodified, with no domain
context. -/
theorem providerError_wrapping (env : LifecycleEnv) (chlng : Chlng) (ka e1 e2 : String)
    (hfind : env.findChallenge = Except.ok chlng)
    (hprov : env.hasProvider = true)
    (hka : env.getKeyAuth chlng.token = Except.ok ka)
    (hpres : env.present env.identifier chlng.token ka = Except.error e1)
    (hclean : env.cleanUp env.identifier chlng.token ka = Except.error e2) :
    PreSolve env =
      Except.error ("[" ++ env.domain ++ "] acme: error presenting token: " ++ e1) ∧
    strContainsSub ("[" ++ env.domain ++ "] acme: error presenting token: " ++ e1)
      env.domain = true ∧
    CleanUp env = Except.error e2 := by
  refine ⟨?_, ?_, ?_⟩
  · simp [PreSolve, hfind, hprov, hka, hpres]
  · have := strContainsSub_wrap env.domain ("] acme: error presenting token: " ++ e1)
    simpa [String.append_assoc] using this
  · simp [CleanUp, hfind, hka, hclean]

/-- Witness for C7 (amended), with both provider calls failing. -/
theorem providerError_wrapping_witness :
    PreSolve provFailEnv =
      Except.error ("[" ++ provFailEnv.domain ++ "] acme: error presenting token: " ++
        "api down") ∧
    strContainsSub ("[" ++ provFailEnv.domain ++ "] acme: error presenting token: " ++
      "api down") provFailEnv.domain = true ∧
    CleanUp provFailEnv = Except.error "boom" :=
  providerError_wrapping provFailEnv ⟨"tok"⟩ "ka1" "api down" "boom" rfl rfl rfl rfl rfl

/-- The propagation wait only records prechecks and sleeps of the
polling interval. -/
theorem pollUntil_evs (check : Nat → Bool × Option String) (interval : Nat) :
    ∀ (fuel i : Nat) (le : Option String) (ev : Ev),
      ev ∈ (pollUntil check interval fuel i le).2 →
      ev = Ev.precheck ∨ ev = Ev.sleep interval := by
  intro fuel
  induction fuel with
  | zero =>
    intro i le ev h
    simp [pollUntil] at h
  | succ m ih =>
    intro i le ev h
    cases hstep : check i with
    | mk sat errOpt =>
      cases sat with
      | true =>
        simp [pollUntil, hstep] at h
        exact Or.inl h
      | false =>
        simp [pollUntil, hstep] at h
        rcases h with h | h | h
        · exact Or.inl h
        · exact Or.inr h
        · exact ih (i + 1) _ ev h

/-- Claim C4: when the propagation wait inside `Solve` fails — by
timeout or by a propagated check error — `Solve` returns exactly that
error, never calls the validator, and never attaches the key
authorization to the challenge. -/
theorem solve_poll_failure (env : LifecycleEnv) (chlng : Chlng) (ka e : String)
    (hfind : env.findChallenge = Except.ok chlng)
    (hka : env.getKeyAuth chlng.token = Except.ok ka)
    (hpoll : (solvePoll env ka).1 = Except.error e) :
    (Solve env).1 = Except.error e ∧
    Ev.validateCall ∉ (Solve env).2 ∧
    Ev.attach ∉ (Solve env).2 := by
  have hS : Solve env =
      (Except.error e, Ev.sleep (solveTimeouts env).2 :: (solvePoll env ka).2) := by
    simp [Solve, hfind, hka, hpoll]
  refine ⟨by rw [hS], ?_, ?_⟩
  · rw [hS]
    intro hmem
    simp only [List.mem_cons] at hmem
    rcases hmem with h | h
    · simp at h
    · simp only [solvePoll] at h
      rcases pollUntil_evs _ _ _ _ _ _ h with h2 | h2 <;> simp at h2
  · rw [hS]
    intro hmem
    simp only [List.mem_cons] at hmem
    rcases hmem with h | h
    · simp at h
    · simp only [solvePoll] at h
      rcases pollUntil_evs _ _ _ _ _ _ h with h2 | h2 <;> simp at h2

/-- Witness for C4: the precheck never succeeds and the budget of
`baseEnv` runs out, so the wait times out. -/
theorem solve_poll_failure_witness :
    (Solve baseEnv).1 = Except.error "time limit exceeded" ∧
    Ev.validateCall ∉ (Solve baseEnv).2 ∧
    Ev.attach ∉ (Solve baseEnv).2 :=
  solve_poll_failure baseEnv ⟨"tok"⟩ "ka1" "time limit exceeded" rfl rfl rfl

/-- A trace accepted from a sleep-less start is accepted from any
start. -/
theorem prechecksSleptFrom_mono (interval : Nat) :
    ∀ (l : List Ev) (b : Bool),
      prechecksSleptFrom interval false l = true →
      prechecksSleptFrom interval b l = true := by
  intro l
  induction l with
  | nil => intro b _; rfl
  | cons ev rest ih =>
    intro b h
    cases ev with
    | sleep j => simpa [prechecksSleptFrom] using h
    | precheck => simp [prechecksSleptFrom] at h
    | attach => simpa [prechecksSleptFrom] using h
    | validateCall => simpa [prechecksSleptFrom] using h

/-- A sleep of one interval, then the propagation wait's trace, then a
precheck-free suffix: every precheck is immediately preceded by a sleep
of one interval. -/
theorem pollUntil_slept (check : Nat → Bool × Option String) (interval : Nat)
    (suffix : List Ev) (hsuf : prechecksSleptFrom interval false suffix = true) :
    ∀ (fuel i : Nat) (le : Option String),
      prechecksSleptFrom interval false
        (Ev.sleep interval :: ((pollUntil check interval fuel i le).2 ++ suffix)) = true := by
  intro fuel
  induction fuel with
  | zero =>
    intro i le
    simp only [pollUntil, List.nil_append]
    simp [prechecksSleptFrom]
    exact prechecksSleptFrom_mono interval suffix true hsuf
  | succ m ih =>
    intro i le
    rcases hstep : check i with ⟨sat, errOpt⟩
    cases sat with
    | true =>
      simp only [pollUntil, hstep]
      simp [prechecksSleptFrom, hsuf]
    | false =>
      cases errOpt with
      | some e2 =>
        have h2 := ih (i + 1) (some e2)
        simp only [pollUntil, hstep]
        simpa [prechecksSleptFrom, List.cons_append] using h2
      | none =>
        have h2 := ih (i + 1) le
        simp only [pollUntil, hstep]
        simpa [prechecksSleptFrom, List.cons_append] using h2

/-- Claim C8: in every `Solve` run that reaches the polling phase, a
sleep of one polling interval precedes the first propagation precheck,
and one interval separates consecutive prechecks. -/
theorem solve_sleep_before_prechecks (env : LifecycleEnv) (chlng : Chlng) (ka : String)
    (hfind : env.findChallenge = Except.ok chlng)
    (hka : env.getKeyAuth chlng.token = Except.ok ka) :
    prechecksSleptFrom (solveTimeouts env).2 false (Solve env).2 = true := by
  rcases hres : (solvePoll env ka).1 with e | u
  · have hS : Solve env =
        (Except.error e, Ev.sleep (solveTimeouts env).2 :: (solvePoll env ka).2) := by
      simp [Solve, hfind, hka, hres]
    rw [hS]
    have := pollUntil_slept
      (fun i => env.preCheckCall env.domain (solveInfo env ka).EffectiveFQDN
        (solveInfo env ka).Value i)
      (solveTimeouts env).2 [] rfl env.pollFuel 0 none
    simpa [solvePoll] using this
  · have hS : Solve env =
        (env.validate env.domain chlng,
         (Ev.sleep (solveTimeouts env).2 :: (solvePoll env ka).2) ++
           [Ev.attach, Ev.validateCall]) := by
      simp [Solve, hfind, hka, hres]
    rw [hS]
    have := pollUntil_slept
      (fun i => env.preCheckCall env.domain (solveInfo env ka).EffectiveFQDN
        (solveInfo env ka).Value i)
      (solveTimeouts env).2 [Ev.attach, Ev.validateCall] rfl env.pollFuel 0 none
    simpa [solvePoll] using this

/-- Witness for C8, at `baseEnv`. -/
theorem solve_sleep_before_prechecks_witness :
    prechecksSleptFrom (solveTimeouts baseEnv).2 false (Solve baseEnv).2 = true :=
  solve_sleep_before_prechecks baseEnv ⟨"tok"⟩ "ka1" rfl rfl

end Dns01
